import Mathlib

/-!
# Verification of the clipguard cross-app paste-risk monitor

Shallow embedding of the core of `clipguard` (a Tauri tray app that warns
about, or blocks, cross-application pastes) and proofs of the testable
properties of its specification.

Embedded source files:
* `src-tauri/src/rules.rs` — rule data model and first-match rule lookup;
* `src-tauri/src/clipboard.rs` — the macOS monitor loop and CGEventTap
  blocker thread;
* `src-tauri/src/clipboard_windows.rs` — the Windows monitor loop and
  low-level keyboard-hook blocker thread;
* `src-tauri/src/lib.rs` — the `set_rules` command and the
  `check_accessibility` permission query.

The monitor loop bodies are embedded as pure step functions on explicit
state; OS samples (foreground app, clipboard change counter, accessibility
trust) are inputs of a tick, and emitted events, notifications and blocker
channel messages are collected in the tick's output.
-/

namespace Clipguard

/-- Rust `char::to_ascii_lowercase`: map `A`–`Z` to `a`–`z`, leave
everything else unchanged. -/
def toAsciiLower (c : Char) : Char :=
  if 'A' ≤ c ∧ c ≤ 'Z' then Char.ofNat (c.toNat + 32) else c

/-- Rust `str::eq_ignore_ascii_case`: equality after ASCII-lowercasing
both sides. -/
def eqIgnoreAsciiCase (a b : String) : Bool :=
  a.data.map toAsciiLower == b.data.map toAsciiLower

/-- `rules.rs` — `RuleAction`: what to do when a rule matches. -/
inductive RuleAction where
  | notify
  | block
deriving DecidableEq, Repr

/-- `rules.rs` — `BlockRule`: one source→destination rule. `None`
pattern fields match anything; names are informational only. -/
structure BlockRule where
  from_app_id : Option String
  from_app_name : Option String
  to_app_id : Option String
  to_app_name : Option String
  action : RuleAction
deriving DecidableEq, Repr

/-- `rules.rs` — the predicate of the closure inside `matches_rule`:
`from` matches when absent, or when the source id is present and
case-insensitively equal to it; `to` matches when absent, or when
case-insensitively equal to the destination id. -/
def ruleMatchPred (r : BlockRule) (source_app_id : Option String)
    (dest_app_id : String) : Bool :=
  let from_matches :=
    match r.from_app_id with
    | none => true
    | some id =>
      match source_app_id with
      | some s => eqIgnoreAsciiCase s id
      | none => false
  let to_matches :=
    match r.to_app_id with
    | none => true
    | some id => eqIgnoreAsciiCase id dest_app_id
  from_matches && to_matches

/-- `rules.rs` — `matches_rule`: find the first matching rule for a
source→dest pair (`rules.iter().find(..).cloned()`). -/
def matches_rule (rules : List BlockRule) (source_app_id : Option String)
    (dest_app_id : String) : Option BlockRule :=
  rules.find? (fun r => ruleMatchPred r source_app_id dest_app_id)

/-- `rules.rs` — `is_valid`: at least one side must specify an app. -/
def is_valid (rule : BlockRule) : Bool :=
  rule.from_app_id.isSome || rule.to_app_id.isSome

/-- `clipboard.rs` / `clipboard_windows.rs` — `ClipboardEvent`: snapshot
of the foreground app identity at the moment a clipboard change was
observed. -/
structure ClipboardEvent where
  source_app_id : Option String
  source_app_name : Option String
deriving DecidableEq, Repr

/-- `clipboard.rs` / `clipboard_windows.rs` — `PasteWarning`: the outcome
of a risk evaluation. -/
structure PasteWarning where
  source_app_id : Option String
  source_app_name : Option String
  dest_app_id : Option String
  dest_app_name : Option String
  blocked : Bool
deriving DecidableEq, Repr

/-- `clipboard.rs` / `clipboard_windows.rs` — `ClipboardState`: the shared
mutex-protected guard state. -/
structure ClipboardState where
  last_copy_source : Option ClipboardEvent
  enabled : Bool
  rules : List BlockRule
  blocking_active : Bool
deriving DecidableEq, Repr

/-- `clipboard.rs` / `clipboard_windows.rs` — `is_cross_app`: a paste is
cross-app unless the copy source's id is present and case-insensitively
equal to the destination id; an unresolved source counts as cross-app. -/
def is_cross_app (source : ClipboardEvent) (dest_id : String) : Bool :=
  match source.source_app_id with
  | some src_id => !(eqIgnoreAsciiCase src_id dest_id)
  | none => true

/-- `clipboard.rs` / `clipboard_windows.rs` — `BlockerMsg`: the two-message
control protocol of the suppression worker. -/
inductive BlockerMsg where
  | enable
  | disable
deriving DecidableEq, Repr

/-- `lib.rs` — `check_accessibility` on non-macOS targets: the
`#[cfg(not(target_os = "macos"))]` branch returns `true` unconditionally
(no elevated-input permission is required for a Windows low-level
keyboard hook). -/
def check_accessibility_windows : Bool := true

/-- Everything a single poller tick sends to the outside world: events
emitted to the UI, messages sent on the blocker channel, and notification
bodies shown to the user. -/
structure TickOutput where
  clipboard_events : List ClipboardEvent
  blocker_msgs : List BlockerMsg
  notes : List String
  warnings : List PasteWarning
deriving DecidableEq, Repr

/-- A tick that sends nothing. -/
def emptyOut : TickOutput := ⟨[], [], [], []⟩

/-- Concatenate the outputs of two successive phases of a tick. -/
def mergeOut (a b : TickOutput) : TickOutput :=
  ⟨a.clipboard_events ++ b.clipboard_events, a.blocker_msgs ++ b.blocker_msgs,
    a.notes ++ b.notes, a.warnings ++ b.warnings⟩

/-- The `if block_active { send Disable; block_active = false; s.blocking_active = false }`
block that appears three times in each monitor loop (on clipboard change,
on disabled guard, and on app switch). Returns the updated guard state,
the updated `block_active` local, and the channel messages sent. -/
def disarmStep (g : ClipboardState) (blockActive : Bool) :
    ClipboardState × Bool × List BlockerMsg :=
  if blockActive then ({ g with blocking_active := false }, false, [BlockerMsg.disable])
  else (g, blockActive, [])

/-- Notification body for a `Notify` match (both platforms). -/
def notifyBody (src dst : String) : String :=
  s!"Clipboard from {src}. Be careful pasting into {dst}."

/-- Notification body for an enforced `Block` match (both platforms). -/
def blockedBody (src dst : String) : String :=
  s!"Paste blocked: {src} → {dst}"

/-- macOS notification body when a `Block` rule matches but Accessibility
is not granted: the block degrades to a notification naming the
permission gap. -/
def degradedBody (src dst : String) : String :=
  s!"Clipboard from {src}. Pasting into {dst} would be blocked (grant Accessibility)."

/-- `lib.rs` — `set_rules`: persist the new rules, then swap the
in-memory store. The `?` on `rules::save` returns early on failure, so
the in-memory swap only happens when persistence succeeded. The outcome
of `rules::save` (filesystem I/O) is an explicit parameter. -/
def set_rules (saveResult : Except String Unit) (state : ClipboardState)
    (new_rules : List BlockRule) : ClipboardState × Except String Unit :=
  match saveResult with
  | .error e => (state, .error e)
  | .ok _ => ({ state with rules := new_rules }, .ok ())

namespace Mac

/-- `clipboard.rs` — the monitor thread's locals: the last observed
pasteboard change count (`isize`, modelled as `Int`), the previous tick's
foreground app id, the dedup key of the last warning issued, and whether
the event tap is currently armed. -/
structure MonitorState where
  last_change_count : Int
  last_frontmost_id : Option String
  last_warned : Option (Option String × Option String)
  block_active : Bool
deriving DecidableEq, Repr

/-- One tick's OS samples: the foreground app (id, name) from
`get_frontmost_app`, the pasteboard change count, and the value
`AXIsProcessTrusted()` would return if consulted this tick. -/
structure TickInput where
  current_id : Option String
  current_name : Option String
  change_count : Int
  ax_trusted : Bool
deriving DecidableEq, Repr

/-- Result of a tick or tick phase: guard state, monitor locals, output. -/
structure StepResult where
  g : ClipboardState
  m : MonitorState
  out : TickOutput
deriving DecidableEq, Repr

/-- `clipboard.rs` lines 237–262 — clipboard-change detection: when the
sampled change count differs from the last observed one, reset the dedup
key, disarm an active block, overwrite `last_copy_source` with the
just-sampled foreground identity, and emit the ClipboardEvent. Runs
before (and regardless of) the enabled check. -/
def clipPhase (g : ClipboardState) (m : MonitorState) (i : TickInput) : StepResult :=
  if i.change_count ≠ m.last_change_count then
    let d := disarmStep g m.block_active
    let event : ClipboardEvent := ⟨i.current_id, i.current_name⟩
    { g := { d.1 with last_copy_source := some event },
      m := { m with last_change_count := i.change_count, last_warned := none,
                    block_active := d.2.1 },
      out := ⟨[event], d.2.2, [], []⟩ }
  else
    { g := g, m := m, out := emptyOut }

/-- `clipboard.rs` lines 294–385 — the evaluation run after an app switch
was detected and any previous block disarmed: require a resolved
destination and a known copy source, skip same-app, look up the first
matching rule, dedup, then resolve the action (Block is gated on
`AXIsProcessTrusted`). -/
def evalPhase (g : ClipboardState) (m : MonitorState) (i : TickInput) : StepResult :=
  match i.current_id with
  | none => { g := g, m := m, out := emptyOut }
  | some dest_id =>
    match g.last_copy_source with
    | none => { g := g, m := m, out := emptyOut }
    | some source =>
      if is_cross_app source dest_id then
        match matches_rule g.rules source.source_app_id dest_id with
        | none => { g := g, m := m, out := emptyOut }
        | some matched =>
          let warn_key : Option String × Option String :=
            (source.source_app_id, some dest_id)
          if m.last_warned = some warn_key then { g := g, m := m, out := emptyOut }
          else
            let m1 := { m with last_warned := some warn_key }
            let src_name := source.source_app_name.getD "Unknown app"
            let dst_name := i.current_name.getD "Unknown app"
            match matched.action with
            | .notify =>
              { g := g, m := m1,
                out := ⟨[], [], [notifyBody src_name dst_name],
                  [⟨source.source_app_id, source.source_app_name, some dest_id,
                    i.current_name, false⟩]⟩ }
            | .block =>
              if i.ax_trusted then
                { g := { g with blocking_active := true },
                  m := { m1 with block_active := true },
                  out := ⟨[], [BlockerMsg.enable], [blockedBody src_name dst_name],
                    [⟨source.source_app_id, source.source_app_name, some dest_id,
                      i.current_name, true⟩]⟩ }
              else
                { g := g, m := m1,
                  out := ⟨[], [], [degradedBody src_name dst_name],
                    [⟨source.source_app_id, source.source_app_name, some dest_id,
                      i.current_name, false⟩]⟩ }
      else { g := g, m := m, out := emptyOut }

/-- `clipboard.rs` lines 232–386 — one full iteration of the monitor
loop: clipboard-change phase, enabled check (disarm and remember the
foreground id when disabled), app-switch detection, disarm on switch,
then rule evaluation. -/
def tick (g : ClipboardState) (m : MonitorState) (i : TickInput) : StepResult :=
  let r1 := clipPhase g m i
  if r1.g.enabled then
    if i.current_id = r1.m.last_frontmost_id then
      { g := r1.g, m := { r1.m with last_frontmost_id := i.current_id }, out := r1.out }
    else
      let d := disarmStep r1.g r1.m.block_active
      let m3 := { r1.m with last_frontmost_id := i.current_id, block_active := d.2.1 }
      let r2 := evalPhase d.1 m3 i
      { g := r2.g, m := r2.m,
        out := mergeOut r1.out ⟨[], d.2.2 ++ r2.out.blocker_msgs, r2.out.notes,
          r2.out.warnings⟩ }
  else
    let d := disarmStep r1.g r1.m.block_active
    { g := d.1,
      m := { r1.m with block_active := d.2.1, last_frontmost_id := i.current_id },
      out := mergeOut r1.out ⟨[], d.2.2, [], []⟩ }

/-- Run the monitor over a list of tick inputs, concatenating outputs. -/
def run (g : ClipboardState) (m : MonitorState) : List TickInput → StepResult
  | [] => { g := g, m := m, out := emptyOut }
  | i :: is =>
    let r := tick g m i
    let rs := run r.g r.m is
    { g := rs.g, m := rs.m, out := mergeOut r.out rs.out }

end Mac

namespace Win

/-- `clipboard_windows.rs` — the monitor thread's locals; the clipboard
sequence number is a `u32`, modelled as `Nat` (only compared for
equality). -/
structure MonitorState where
  last_seq : Nat
  last_frontmost_id : Option String
  last_warned : Option (Option String × Option String)
  block_active : Bool
deriving DecidableEq, Repr

/-- One tick's OS samples on Windows. There is no permission input: a
low-level keyboard hook needs no elevated-input permission
(`check_accessibility` returns `true` off macOS). -/
structure TickInput where
  current_id : Option String
  current_name : Option String
  seq : Nat
deriving DecidableEq, Repr

/-- Result of a tick or tick phase: guard state, monitor locals, output. -/
structure StepResult where
  g : ClipboardState
  m : MonitorState
  out : TickOutput
deriving DecidableEq, Repr

/-- `clipboard_windows.rs` lines 204–228 — clipboard-change detection,
identical in structure to the macOS variant. -/
def clipPhase (g : ClipboardState) (m : MonitorState) (i : TickInput) : StepResult :=
  if i.seq ≠ m.last_seq then
    let d := disarmStep g m.block_active
    let event : ClipboardEvent := ⟨i.current_id, i.current_name⟩
    { g := { d.1 with last_copy_source := some event },
      m := { m with last_seq := i.seq, last_warned := none, block_active := d.2.1 },
      out := ⟨[event], d.2.2, [], []⟩ }
  else
    { g := g, m := m, out := emptyOut }

/-- `clipboard_windows.rs` lines 260–327 — the post-switch evaluation.
Unlike the macOS variant, a matched `Block` rule arms the hook
unconditionally: there is no permission to consult. -/
def evalPhase (g : ClipboardState) (m : MonitorState) (i : TickInput) : StepResult :=
  match i.current_id with
  | none => { g := g, m := m, out := emptyOut }
  | some dest_id =>
    match g.last_copy_source with
    | none => { g := g, m := m, out := emptyOut }
    | some source =>
      if is_cross_app source dest_id then
        match matches_rule g.rules source.source_app_id dest_id with
        | none => { g := g, m := m, out := emptyOut }
        | some matched =>
          let warn_key : Option String × Option String :=
            (source.source_app_id, some dest_id)
          if m.last_warned = some warn_key then { g := g, m := m, out := emptyOut }
          else
            let m1 := { m with last_warned := some warn_key }
            let src_name := source.source_app_name.getD "Unknown app"
            let dst_name := i.current_name.getD "Unknown app"
            match matched.action with
            | .notify =>
              { g := g, m := m1,
                out := ⟨[], [], [notifyBody src_name dst_name],
                  [⟨source.source_app_id, source.source_app_name, some dest_id,
                    i.current_name, false⟩]⟩ }
            | .block =>
              { g := { g with blocking_active := true },
                m := { m1 with block_active := true },
                out := ⟨[], [BlockerMsg.enable], [blockedBody src_name dst_name],
                  [⟨source.source_app_id, source.source_app_name, some dest_id,
                    i.current_name, true⟩]⟩ }
      else { g := g, m := m, out := emptyOut }

/-- `clipboard_windows.rs` lines 199–328 — one full iteration of the
Windows monitor loop. -/
def tick (g : ClipboardState) (m : MonitorState) (i : TickInput) : StepResult :=
  let r1 := clipPhase g m i
  if r1.g.enabled then
    if i.current_id = r1.m.last_frontmost_id then
      { g := r1.g, m := { r1.m with last_frontmost_id := i.current_id }, out := r1.out }
    else
      let d := disarmStep r1.g r1.m.block_active
      let m3 := { r1.m with last_frontmost_id := i.current_id, block_active := d.2.1 }
      let r2 := evalPhase d.1 m3 i
      { g := r2.g, m := r2.m,
        out := mergeOut r1.out ⟨[], d.2.2 ++ r2.out.blocker_msgs, r2.out.notes,
          r2.out.warnings⟩ }
  else
    let d := disarmStep r1.g r1.m.block_active
    { g := d.1,
      m := { r1.m with block_active := d.2.1, last_frontmost_id := i.current_id },
      out := mergeOut r1.out ⟨[], d.2.2, [], []⟩ }

/-- Run the Windows monitor over a list of tick inputs. -/
def run (g : ClipboardState) (m : MonitorState) : List TickInput → StepResult
  | [] => { g := g, m := m, out := emptyOut }
  | i :: is =>
    let r := tick g m i
    let rs := run r.g r.m is
    { g := rs.g, m := rs.m, out := mergeOut r.out rs.out }

end Win

namespace MacBlocker

/-- State of the macOS blocker thread: whether `active` holds a tap
(`active.is_some()` in `run_blocker_thread`), and how many native tap
handles are currently installed and not yet invalidated (a created
tap/run-loop-source pair counts as one handle). -/
structure WorkerState where
  active : Bool
  installed : Nat
deriving DecidableEq, Repr

/-- What `rx.recv_timeout` produced this iteration. -/
inductive RecvResult where
  | msg (m : BlockerMsg)
  | timeout
  | disconnected
deriving DecidableEq, Repr

/-- `clipboard.rs` lines 156–167 — `teardown_tap`: if a tap is installed,
disable it, remove it from the run loop and release it; otherwise do
nothing. -/
def teardown (s : WorkerState) : WorkerState :=
  if s.active then { active := false, installed := s.installed - 1 } else s

/-- `clipboard.rs` lines 107–153 — one iteration of the macOS blocker
loop. `installOk` says whether `CGEventTapCreate` and
`CFMachPortCreateRunLoopSource` both succeed if attempted (on failure the
code releases whatever was created and continues with no tap). Returns
the new state and whether the loop exited. -/
def step (s : WorkerState) (r : RecvResult) (installOk : Bool) : WorkerState × Bool :=
  match r with
  | .msg .enable =>
    if s.active then (s, false)
    else if installOk then ({ active := true, installed := s.installed + 1 }, false)
    else (s, false)
  | .msg .disable => (teardown s, false)
  | .timeout => (s, false)
  | .disconnected => (teardown s, true)

end MacBlocker

namespace WinBlocker

/-- State of the Windows blocker thread: the `BLOCK_PASTE` atomic read by
the keyboard hook, and whether the `WH_KEYBOARD_LL` hook (installed once
at thread start) is still installed. -/
structure WorkerState where
  blockPaste : Bool
  hookInstalled : Bool
deriving DecidableEq, Repr

/-- Effect of one drained control message on the `BLOCK_PASTE` flag. -/
def applyCmd (_flag : Bool) : BlockerMsg → Bool
  | .enable => true
  | .disable => false

/-- Drain a batch of pending control messages into the flag. -/
def applyCmds (flag : Bool) (cmds : List BlockerMsg) : Bool :=
  cmds.foldl applyCmd flag

/-- `clipboard_windows.rs` lines 159–182 — one iteration of the Windows
blocker loop: drain all pending control messages into `BLOCK_PASTE`
(`while let Ok(cmd) = rx.try_recv()` stops on an empty channel and on a
disconnected one alike, and never inspects which it was — so
`channelDisconnected` has no effect on the iteration), then pump one
window message with `GetMessageW`. The loop exits only when `GetMessageW`
returns ≤ 0 (`WM_QUIT` or error); on exit it clears `BLOCK_PASTE` and
unhooks. -/
def iteration (s : WorkerState) (pending : List BlockerMsg)
    (channelDisconnected : Bool) (getMessageRet : Int) : WorkerState × Bool :=
  let _ := channelDisconnected
  if getMessageRet ≤ 0 then
    ({ blockPaste := false, hookInstalled := false }, true)
  else
    ({ s with blockPaste := applyCmds s.blockPaste pending }, false)

end WinBlocker

/-- The dedup key of a warning: `(source id, destination id)`. -/
def warnKeyOf (w : PasteWarning) : Option String × Option String :=
  (w.source_app_id, w.dest_app_id)

/-- The spec's per-rule match predicate (§4.3), written from the spec's
words: a rule's `from` pattern matches if absent, or if present and
case-insensitively equal to the source id — and the source id is present;
an absent source id never satisfies a concrete `from` pattern. Symmetric
for `to` against the destination id. -/
def specRuleMatches (r : BlockRule) (source_id : Option String)
    (dest_id : String) : Bool :=
  (match r.from_app_id, source_id with
    | none, _ => true
    | some pat, some s => eqIgnoreAsciiCase pat s
    | some _, none => false) &&
  (match r.to_app_id with
    | none => true
    | some pat => eqIgnoreAsciiCase dest_id pat)

/-- The spec's first-match-wins lookup (§4.3): the first rule in order
whose predicate matches determines the outcome; later rules are not
consulted. -/
def specFirstMatch : List BlockRule → Option String → String → Option BlockRule
  | [], _, _ => none
  | r :: rest, src, dst =>
    if specRuleMatches r src dst then some r else specFirstMatch rest src dst

lemma eqIgnoreAsciiCase_refl (s : String) : eqIgnoreAsciiCase s s = true := by
  simp [eqIgnoreAsciiCase]

lemma eqIgnoreAsciiCase_comm (a b : String) :
    eqIgnoreAsciiCase a b = eqIgnoreAsciiCase b a := by
  simp only [eqIgnoreAsciiCase]
  rw [Bool.eq_iff_iff, beq_iff_eq, beq_iff_eq]
  exact eq_comm

lemma ruleMatchPred_eq_spec (r : BlockRule) (src : Option String) (d : String) :
    ruleMatchPred r src d = specRuleMatches r src d := by
  unfold ruleMatchPred specRuleMatches
  cases hf : r.from_app_id <;> cases hs : src <;> cases ht : r.to_app_id <;>
    simp [eqIgnoreAsciiCase_comm]

/-- C4: for every ordered rule list, source id (possibly absent) and
present destination id, `matches_rule` returns exactly the spec's
first-match-wins lookup: the first rule whose `from` pattern matches
(absent matches any; a present pattern needs a present, case-insensitively
equal source id) and whose `to` pattern matches the destination
(absent matches any; present needs case-insensitive equality); `none`
when no rule matches, and later rules are never consulted once one
matches. -/
theorem C4_matches_rule_first_match (rules : List BlockRule)
    (src : Option String) (d : String) :
    matches_rule rules src d = specFirstMatch rules src d := by
  induction rules with
  | nil => rfl
  | cons r rest ih =>
    simp only [matches_rule, List.find?, specFirstMatch] at *
    rw [ruleMatchPred_eq_spec]
    cases h : specRuleMatches r src d <;> simp [h, ih]

/-- C6 counterexample: with a failing save (`rules::save` returns an
error), `set_rules` leaves the in-memory rule store unchanged — the `?`
operator returns before the swap — contradicting the claim that the
in-memory list is updated even when persistence fails. -/
theorem C6_counterexample :
    ¬ ((set_rules (Except.error "disk full")
        ⟨none, true, [], false⟩
        [⟨none, none, some "com.apple.Terminal", none, RuleAction.block⟩]).1.rules
      = [⟨none, none, some "com.apple.Terminal", none, RuleAction.block⟩]) := by
  decide

/-- C6 (amended): `set_rules` persists first and swaps the in-memory
store only when persisting succeeded; on persistence failure the
in-memory state is left entirely unchanged and the failure is surfaced
as the command's `Result`. -/
theorem C6_set_rules_amended (res : Except String Unit)
    (st : ClipboardState) (new_rules : List BlockRule) :
    (set_rules res st new_rules).2 = res ∧
    (set_rules res st new_rules).1.rules =
      (match res with
        | .ok _ => new_rules
        | .error _ => st.rules) ∧
    (match res with
      | .ok _ => True
      | .error _ => (set_rules res st new_rules).1 = st) := by
  cases res <;> simp [set_rules]

/-- C5 counterexample: the Windows suppression worker ignores channel
disconnection. With the hook installed, the flag armed, the channel
disconnected and an ordinary window message pumped (`GetMessageW`
returning 1), the worker neither uninstalls the hook, nor resets the
armed flag, nor exits its loop. -/
theorem C5_counterexample :
    ¬ ((WinBlocker.iteration ⟨true, true⟩ [] true 1).1.hookInstalled = false ∧
        (WinBlocker.iteration ⟨true, true⟩ [] true 1).1.blockPaste = false ∧
        (WinBlocker.iteration ⟨true, true⟩ [] true 1).2 = true) := by
  decide

/-- C5 (amended): the macOS suppression worker reacts to channel
disconnection by fully tearing down any installed tap (leaving no
listener installed) and exiting its loop; the Windows worker ignores
channel disconnection — it exits only when its message pump returns
`WM_QUIT` or an error (`GetMessageW ≤ 0`), at which point it resets the
armed flag and uninstalls the hook. -/
theorem C5_teardown_amended :
    (∀ (s : MacBlocker.WorkerState) (ok : Bool),
        MacBlocker.step s .disconnected ok = (MacBlocker.teardown s, true) ∧
        (MacBlocker.teardown s).active = false ∧
        (s.installed = (if s.active then 1 else 0) →
          (MacBlocker.teardown s).installed = 0)) ∧
    (∀ (s : WinBlocker.WorkerState) (pending : List BlockerMsg)
        (c : Bool) (ret : Int), ret ≤ 0 →
        WinBlocker.iteration s pending c ret = (⟨false, false⟩, true)) ∧
    (∀ (s : WinBlocker.WorkerState) (pending : List BlockerMsg),
        (WinBlocker.iteration s pending true 1).2 = false) := by
  refine ⟨?_, ?_, ?_⟩
  · intro s ok
    refine ⟨rfl, ?_, ?_⟩
    · unfold MacBlocker.teardown
      cases h : s.active <;> simp [h]
    · intro hinv
      unfold MacBlocker.teardown
      cases h : s.active <;> simp [h] at hinv ⊢ <;> omega
  · intro s pending c ret hret
    simp [WinBlocker.iteration, hret]
  · intro s pending
    simp [WinBlocker.iteration]

/-- C5 (amended) witness: macOS teardown from a one-tap state leaves no
tap installed, and the Windows worker at a concrete `WM_QUIT` iteration
resets and exits. -/
theorem C5_teardown_amended_witness :
    (MacBlocker.teardown ⟨true, 1⟩).installed = 0 ∧
    WinBlocker.iteration ⟨true, true⟩ [] false 0 = (⟨false, false⟩, true) :=
  ⟨(C5_teardown_amended.1 ⟨true, 1⟩ true).2.2 (by decide),
    C5_teardown_amended.2.1 ⟨true, true⟩ [] false 0 (by decide)⟩

/-- C8: arming is idempotent. On macOS, a second `Enable` after a
successful one leaves the worker state unchanged (still exactly one
installed tap when started from the initial state), and `Disable` with
no tap installed is a no-op. On Windows, draining `Enable` twice sets the
single `BLOCK_PASTE` flag exactly as draining it once does, `Disable`
while already clear is a no-op, and an ordinary iteration never changes
the number of installed hooks. -/
theorem C8_arm_idempotent :
    (∀ (s : MacBlocker.WorkerState) (ok2 : Bool),
        MacBlocker.step (MacBlocker.step s (.msg .enable) true).1 (.msg .enable) ok2
          = ((MacBlocker.step s (.msg .enable) true).1, false)) ∧
    ((MacBlocker.step (MacBlocker.step ⟨false, 0⟩ (.msg .enable) true).1
        (.msg .enable) true).1 = ⟨true, 1⟩) ∧
    (∀ (n : Nat) (ok : Bool),
        MacBlocker.step ⟨false, n⟩ (.msg .disable) ok = (⟨false, n⟩, false)) ∧
    (∀ f : Bool, WinBlocker.applyCmds f [.enable, .enable] = true ∧
        WinBlocker.applyCmds f [.enable] = true) ∧
    (WinBlocker.applyCmd false .disable = false) ∧
    (∀ (s : WinBlocker.WorkerState) (pending : List BlockerMsg) (c : Bool),
        (WinBlocker.iteration s pending c 1).1.hookInstalled = s.hookInstalled) := by
  refine ⟨?_, by decide, ?_, ?_, by decide, ?_⟩
  · intro s ok2
    unfold MacBlocker.step
    cases h : s.active <;> simp [h]
  · intro n ok
    simp [MacBlocker.step, MacBlocker.teardown]
  · intro f
    exact ⟨rfl, rfl⟩
  · intro s pending c
    simp [WinBlocker.iteration]

lemma mac_clipPhase_nochange (g : ClipboardState) (m : Mac.MonitorState)
    (i : Mac.TickInput) (hcc : i.change_count = m.last_change_count) :
    Mac.clipPhase g m i = ⟨g, m, emptyOut⟩ := by
  simp [Mac.clipPhase, hcc]

/-- Shape of one evaluation: either everything is skipped and nothing at
all happens, or exactly one warning is emitted, whose dedup key differs
from the stored one and becomes the new stored key. -/
lemma mac_evalPhase_shape (g : ClipboardState) (m : Mac.MonitorState)
    (i : Mac.TickInput) :
    Mac.evalPhase g m i = ⟨g, m, emptyOut⟩ ∨
    (∃ w, (Mac.evalPhase g m i).out.warnings = [w] ∧
      w.dest_app_id.isSome = true ∧
      m.last_warned ≠ some (warnKeyOf w) ∧
      (Mac.evalPhase g m i).m.last_warned = some (warnKeyOf w) ∧
      (Mac.evalPhase g m i).m.last_change_count = m.last_change_count) := by
  unfold Mac.evalPhase
  cases hid : i.current_id with
  | none => left; rfl
  | some d =>
    cases hsrc : g.last_copy_source with
    | none => left; rfl
    | some source =>
      by_cases hx : is_cross_app source d = true
      · cases hm : matches_rule g.rules source.source_app_id d with
        | none => left; simp [hx, hm]
        | some matched =>
          by_cases hw : m.last_warned = some (source.source_app_id, some d)
          · left; simp [hx, hm, hw]
          · cases hact : matched.action with
            | notify =>
              right
              refine ⟨⟨source.source_app_id, source.source_app_name, some d,
                i.current_name, false⟩, ?_⟩
              simp [hx, hm, hw, hact, warnKeyOf]
            | block =>
              by_cases hax : i.ax_trusted = true
              · right
                refine ⟨⟨source.source_app_id, source.source_app_name, some d,
                  i.current_name, true⟩, ?_⟩
                simp [hx, hm, hw, hact, hax, warnKeyOf]
              · right
                refine ⟨⟨source.source_app_id, source.source_app_name, some d,
                  i.current_name, false⟩, ?_⟩
                simp [hx, hm, hw, hact, hax, warnKeyOf]
      · left; simp [hx]

/-- Shape of a whole tick on a no-clipboard-change input: the change
count is preserved, and either no warning is emitted and the dedup key
is preserved, or exactly one warning is emitted, keyed differently from
the stored key, which becomes the new stored key. -/
lemma mac_tick_shape (g : ClipboardState) (m : Mac.MonitorState)
    (i : Mac.TickInput) (hcc : i.change_count = m.last_change_count) :
    (Mac.tick g m i).m.last_change_count = m.last_change_count ∧
    (((Mac.tick g m i).out.warnings = [] ∧
        (Mac.tick g m i).m.last_warned = m.last_warned) ∨
      (∃ w, (Mac.tick g m i).out.warnings = [w] ∧
        m.last_warned ≠ some (warnKeyOf w) ∧
        (Mac.tick g m i).m.last_warned = some (warnKeyOf w))) := by
  simp only [Mac.tick, mac_clipPhase_nochange g m i hcc]
  split
  next hen =>
    split
    next hsw => simp [emptyOut]
    next hsw =>
      cases hb : m.block_active
      case false =>
        simp only [disarmStep, hb, Bool.false_eq_true, if_false]
        rcases mac_evalPhase_shape g
            { m with last_frontmost_id := i.current_id, block_active := false } i with
          heq | ⟨w, hw1, _, hne, hlw, hlc⟩
        · simp [heq, mergeOut, emptyOut]
        · refine ⟨by simpa using hlc, Or.inr ⟨w, ?_, by simpa using hne, hlw⟩⟩
          simp [mergeOut, emptyOut, hw1]
      case true =>
        simp only [disarmStep, hb, if_true]
        rcases mac_evalPhase_shape { g with blocking_active := false }
            { m with last_frontmost_id := i.current_id, block_active := false } i with
          heq | ⟨w, hw1, _, hne, hlw, hlc⟩
        · simp [heq, mergeOut, emptyOut]
        · refine ⟨by simpa using hlc, Or.inr ⟨w, ?_, by simpa using hne, hlw⟩⟩
          simp [mergeOut, emptyOut, hw1]
  next hen =>
    cases hb : m.block_active <;> simp [disarmStep, hb, mergeOut, emptyOut]

/-- Accumulated dedup property over a run with no clipboard change:
prefixing the stored dedup key, the keys of all emitted warnings form a
chain with no two equal neighbours. -/
lemma mac_run_chain (inputs : List Mac.TickInput) :
    ∀ (g : ClipboardState) (m : Mac.MonitorState),
    (∀ inp ∈ inputs, inp.change_count = m.last_change_count) →
    List.Chain' (fun k1 k2 => k1 ≠ k2)
      (m.last_warned.toList ++ (Mac.run g m inputs).out.warnings.map warnKeyOf) := by
  induction inputs with
  | nil =>
    intro g m _
    cases m.last_warned <;> simp [Mac.run, emptyOut]
  | cons i is ih =>
    intro g m h
    have hcc : i.change_count = m.last_change_count := h i (by simp)
    obtain ⟨hlc, hsh⟩ := mac_tick_shape g m i hcc
    have hrest : ∀ inp ∈ is, inp.change_count = (Mac.tick g m i).m.last_change_count := by
      intro inp hin
      rw [hlc]
      exact h inp (by simp [hin])
    have ihr := ih (Mac.tick g m i).g (Mac.tick g m i).m hrest
    simp only [Mac.run, mergeOut, List.map_append]
    rcases hsh with ⟨hw0, hlw⟩ | ⟨w, hw1, hne, hlw⟩
    · rw [hw0]
      rw [hlw] at ihr
      simpa using ihr
    · rw [hw1]
      rw [hlw] at ihr
      simp only [Option.toList_some, List.cons_append, List.nil_append] at ihr
      cases hml : m.last_warned with
      | none => simpa using ihr
      | some k =>
        have hk : k ≠ warnKeyOf w := by
          intro hkk
          exact hne (by rw [hml, hkk])
        simpa using List.chain'_cons.mpr ⟨hk, ihr⟩

lemma win_clipPhase_nochange (g : ClipboardState) (m : Win.MonitorState)
    (i : Win.TickInput) (hcc : i.seq = m.last_seq) :
    Win.clipPhase g m i = ⟨g, m, emptyOut⟩ := by
  simp [Win.clipPhase, hcc]

/-- Windows analogue of the evaluation-shape lemma. -/
lemma win_evalPhase_shape (g : ClipboardState) (m : Win.MonitorState)
    (i : Win.TickInput) :
    Win.evalPhase g m i = ⟨g, m, emptyOut⟩ ∨
    (∃ w, (Win.evalPhase g m i).out.warnings = [w] ∧
      w.dest_app_id.isSome = true ∧
      m.last_warned ≠ some (warnKeyOf w) ∧
      (Win.evalPhase g m i).m.last_warned = some (warnKeyOf w) ∧
      (Win.evalPhase g m i).m.last_seq = m.last_seq) := by
  unfold Win.evalPhase
  cases hid : i.current_id with
  | none => left; rfl
  | some d =>
    cases hsrc : g.last_copy_source with
    | none => left; rfl
    | some source =>
      by_cases hx : is_cross_app source d = true
      · cases hm : matches_rule g.rules source.source_app_id d with
        | none => left; simp [hx, hm]
        | some matched =>
          by_cases hw : m.last_warned = some (source.source_app_id, some d)
          · left; simp [hx, hm, hw]
          · cases hact : matched.action with
            | notify =>
              right
              refine ⟨⟨source.source_app_id, source.source_app_name, some d,
                i.current_name, false⟩, ?_⟩
              simp [hx, hm, hw, hact, warnKeyOf]
            | block =>
              right
              refine ⟨⟨source.source_app_id, source.source_app_name, some d,
                i.current_name, true⟩, ?_⟩
              simp [hx, hm, hw, hact, warnKeyOf]
      · left; simp [hx]

/-- Windows analogue of the tick-shape lemma. -/
lemma win_tick_shape (g : ClipboardState) (m : Win.MonitorState)
    (i : Win.TickInput) (hcc : i.seq = m.last_seq) :
    (Win.tick g m i).m.last_seq = m.last_seq ∧
    (((Win.tick g m i).out.warnings = [] ∧
        (Win.tick g m i).m.last_warned = m.last_warned) ∨
      (∃ w, (Win.tick g m i).out.warnings = [w] ∧
        m.last_warned ≠ some (warnKeyOf w) ∧
        (Win.tick g m i).m.last_warned = some (warnKeyOf w))) := by
  simp only [Win.tick, win_clipPhase_nochange g m i hcc]
  split
  next hen =>
    split
    next hsw => simp [emptyOut]
    next hsw =>
      cases hb : m.block_active
      case false =>
        simp only [disarmStep, hb, Bool.false_eq_true, if_false]
        rcases win_evalPhase_shape g
            { m with last_frontmost_id := i.current_id, block_active := false } i with
          heq | ⟨w, hw1, _, hne, hlw, hlc⟩
        · simp [heq, mergeOut, emptyOut]
        · refine ⟨by simpa using hlc, Or.inr ⟨w, ?_, by simpa using hne, hlw⟩⟩
          simp [mergeOut, emptyOut, hw1]
      case true =>
        simp only [disarmStep, hb, if_true]
        rcases win_evalPhase_shape { g with blocking_active := false }
            { m with last_frontmost_id := i.current_id, block_active := false } i with
          heq | ⟨w, hw1, _, hne, hlw, hlc⟩
        · simp [heq, mergeOut, emptyOut]
        · refine ⟨by simpa using hlc, Or.inr ⟨w, ?_, by simpa using hne, hlw⟩⟩
          simp [mergeOut, emptyOut, hw1]
  next hen =>
    cases hb : m.block_active <;> simp [disarmStep, hb, mergeOut, emptyOut]

/-- Windows analogue of the run-level dedup chain lemma. -/
lemma win_run_chain (inputs : List Win.TickInput) :
    ∀ (g : ClipboardState) (m : Win.MonitorState),
    (∀ inp ∈ inputs, inp.seq = m.last_seq) →
    List.Chain' (fun k1 k2 => k1 ≠ k2)
      (m.last_warned.toList ++ (Win.run g m inputs).out.warnings.map warnKeyOf) := by
  induction inputs with
  | nil =>
    intro g m _
    cases m.last_warned <;> simp [Win.run, emptyOut]
  | cons i is ih =>
    intro g m h
    have hcc : i.seq = m.last_seq := h i (by simp)
    obtain ⟨hlc, hsh⟩ := win_tick_shape g m i hcc
    have hrest : ∀ inp ∈ is, inp.seq = (Win.tick g m i).m.last_seq := by
      intro inp hin
      rw [hlc]
      exact h inp (by simp [hin])
    have ihr := ih (Win.tick g m i).g (Win.tick g m i).m hrest
    simp only [Win.run, mergeOut, List.map_append]
    rcases hsh with ⟨hw0, hlw⟩ | ⟨w, hw1, hne, hlw⟩
    · rw [hw0]
      rw [hlw] at ihr
      simpa using ihr
    · rw [hw1]
      rw [hlw] at ihr
      simp only [Option.toList_some, List.cons_append, List.nil_append] at ihr
      cases hml : m.last_warned with
      | none => simpa using ihr
      | some k =>
        have hk : k ≠ warnKeyOf w := by
          intro hkk
          exact hne (by rw [hml, hkk])
        simpa using List.chain'_cons.mpr ⟨hk, ihr⟩

/-- C1 counterexample: the dedup key remembers only the most recent
warning, so alternating focus between two rule-matching destinations
re-warns an already-warned pair within one clipboard interval. With a
copy from `editor`, rules for destinations `t1` and `t2`, and focus
switches `t1 → t2 → t1` with zero clipboard changes, the pair
`(editor, t1)` is warned twice — refuting "at most one PasteWarning per
distinct pair between clipboard changes". -/
theorem C1_counterexample :
    ¬ (((Mac.run
        ⟨some ⟨some "editor", some "Editor"⟩, true,
          [⟨none, none, some "t1", some "T1", RuleAction.notify⟩,
            ⟨none, none, some "t2", some "T2", RuleAction.notify⟩], false⟩
        ⟨0, some "editor", none, false⟩
        [⟨some "t1", some "T1", 0, true⟩,
          ⟨some "t2", some "T2", 0, true⟩,
          ⟨some "t1", some "T1", 0, true⟩]).out.warnings.filter
          (fun w => decide (warnKeyOf w = (some "editor", some "t1")))).length ≤ 1) := by
  decide

/-- C1 (amended): between two consecutive clipboard changes, the monitor
never emits two consecutive PasteWarnings with the same
(source id, destination id) pair. The dedup key remembers only the most
recent warning, so the same pair may be warned again once a warning for a
different pair intervenes; deduplication is exact only while the warned
pair is unchanged. Holds for both platform monitors. -/
theorem C1_dedup_amended :
    (∀ (g : ClipboardState) (m : Mac.MonitorState) (inputs : List Mac.TickInput),
        (∀ inp ∈ inputs, inp.change_count = m.last_change_count) →
        List.Chain' (fun k1 k2 => k1 ≠ k2)
          ((Mac.run g m inputs).out.warnings.map warnKeyOf)) ∧
    (∀ (g : ClipboardState) (m : Win.MonitorState) (inputs : List Win.TickInput),
        (∀ inp ∈ inputs, inp.seq = m.last_seq) →
        List.Chain' (fun k1 k2 => k1 ≠ k2)
          ((Win.run g m inputs).out.warnings.map warnKeyOf)) := by
  constructor
  · intro g m inputs h
    exact (List.chain'_append.mp (mac_run_chain inputs g m h)).2.1
  · intro g m inputs h
    exact (List.chain'_append.mp (win_run_chain inputs g m h)).2.1

/-- C1 (amended) witness at a concrete one-tick run. -/
theorem C1_dedup_amended_witness :
    List.Chain' (fun k1 k2 => k1 ≠ k2)
      ((Mac.run
        ⟨some ⟨some "mail", some "Mail"⟩, true,
          [⟨none, none, some "sh", some "Shell", RuleAction.notify⟩], false⟩
        ⟨0, some "mail", none, false⟩
        [⟨some "sh", some "Shell", 0, true⟩]).out.warnings.map warnKeyOf) :=
  C1_dedup_amended.1 _ _ _ (by decide)

lemma mac_clipPhase_warnings (g : ClipboardState) (m : Mac.MonitorState)
    (i : Mac.TickInput) : (Mac.clipPhase g m i).out.warnings = [] := by
  unfold Mac.clipPhase
  split <;> rfl

lemma win_clipPhase_warnings (g : ClipboardState) (m : Win.MonitorState)
    (i : Win.TickInput) : (Win.clipPhase g m i).out.warnings = [] := by
  unfold Win.clipPhase
  split <;> rfl

lemma mac_tick_warnings_cases (g : ClipboardState) (m : Mac.MonitorState)
    (i : Mac.TickInput) :
    (Mac.tick g m i).out.warnings = [] ∨
    ∃ g' m', (Mac.tick g m i).out.warnings = (Mac.evalPhase g' m' i).out.warnings := by
  simp only [Mac.tick]
  split
  next =>
    split
    next => left; exact mac_clipPhase_warnings g m i
    next =>
      right
      refine ⟨(disarmStep (Mac.clipPhase g m i).g (Mac.clipPhase g m i).m.block_active).1,
        { last_change_count := (Mac.clipPhase g m i).m.last_change_count,
          last_frontmost_id := i.current_id,
          last_warned := (Mac.clipPhase g m i).m.last_warned,
          block_active :=
            (disarmStep (Mac.clipPhase g m i).g (Mac.clipPhase g m i).m.block_active).2.1 },
        ?_⟩
      simp [mergeOut, mac_clipPhase_warnings]
  next => left; simp [mergeOut, mac_clipPhase_warnings]

lemma win_tick_warnings_cases (g : ClipboardState) (m : Win.MonitorState)
    (i : Win.TickInput) :
    (Win.tick g m i).out.warnings = [] ∨
    ∃ g' m', (Win.tick g m i).out.warnings = (Win.evalPhase g' m' i).out.warnings := by
  simp only [Win.tick]
  split
  next =>
    split
    next => left; exact win_clipPhase_warnings g m i
    next =>
      right
      refine ⟨(disarmStep (Win.clipPhase g m i).g (Win.clipPhase g m i).m.block_active).1,
        { last_seq := (Win.clipPhase g m i).m.last_seq,
          last_frontmost_id := i.current_id,
          last_warned := (Win.clipPhase g m i).m.last_warned,
          block_active :=
            (disarmStep (Win.clipPhase g m i).g (Win.clipPhase g m i).m.block_active).2.1 },
        ?_⟩
      simp [mergeOut, win_clipPhase_warnings]
  next => left; simp [mergeOut, win_clipPhase_warnings]

/-- C10: every PasteWarning either monitor emits carries a present
destination app id — warning evaluation is skipped whenever the
foreground app id is unresolved, so no paste-warning ever has
`dest_app_id = none`. -/
theorem C10_dest_present :
    (∀ (g : ClipboardState) (m : Mac.MonitorState) (i : Mac.TickInput)
        (w : PasteWarning), w ∈ (Mac.tick g m i).out.warnings →
        w.dest_app_id.isSome = true) ∧
    (∀ (g : ClipboardState) (m : Win.MonitorState) (i : Win.TickInput)
        (w : PasteWarning), w ∈ (Win.tick g m i).out.warnings →
        w.dest_app_id.isSome = true) := by
  constructor
  · intro g m i w hw
    rcases mac_tick_warnings_cases g m i with h0 | ⟨g', m', heq⟩
    · rw [h0] at hw
      cases hw
    · rw [heq] at hw
      rcases mac_evalPhase_shape g' m' i with hskip | ⟨w', hw1, hdest, _⟩
      · simp [hskip, emptyOut] at hw
      · rw [hw1] at hw
        simp only [List.mem_singleton] at hw
        subst hw
        exact hdest
  · intro g m i w hw
    rcases win_tick_warnings_cases g m i with h0 | ⟨g', m', heq⟩
    · rw [h0] at hw
      cases hw
    · rw [heq] at hw
      rcases win_evalPhase_shape g' m' i with hskip | ⟨w', hw1, hdest, _⟩
      · simp [hskip, emptyOut] at hw
      · rw [hw1] at hw
        simp only [List.mem_singleton] at hw
        subst hw
        exact hdest

/-- C10 witness: a concrete emission whose destination id is present. -/
theorem C10_dest_present_witness :
    (⟨some "mail", some "Mail", some "sh", some "Shell", false⟩ : PasteWarning).dest_app_id.isSome
      = true :=
  C10_dest_present.1
    ⟨some ⟨some "mail", some "Mail"⟩, true,
      [⟨none, none, some "sh", some "Shell", RuleAction.notify⟩], false⟩
    ⟨0, some "mail", none, false⟩
    ⟨some "sh", some "Shell", 0, true⟩
    ⟨some "mail", some "Mail", some "sh", some "Shell", false⟩
    (by decide)

lemma mac_evalPhase_skip_sameid (g : ClipboardState) (m : Mac.MonitorState)
    (i : Mac.TickInput) (src : ClipboardEvent) (s : String)
    (hsrc : g.last_copy_source = some src)
    (hid : src.source_app_id = some s)
    (hcur : i.current_id = some s) :
    Mac.evalPhase g m i = ⟨g, m, emptyOut⟩ := by
  unfold Mac.evalPhase
  rw [hcur, hsrc]
  simp [is_cross_app, hid, eqIgnoreAsciiCase_refl]

lemma win_evalPhase_skip_sameid (g : ClipboardState) (m : Win.MonitorState)
    (i : Win.TickInput) (src : ClipboardEvent) (s : String)
    (hsrc : g.last_copy_source = some src)
    (hid : src.source_app_id = some s)
    (hcur : i.current_id = some s) :
    Win.evalPhase g m i = ⟨g, m, emptyOut⟩ := by
  unfold Win.evalPhase
  rw [hcur, hsrc]
  simp [is_cross_app, hid, eqIgnoreAsciiCase_refl]

/-- On a tick whose copy source is the snapshot of this very tick's
foreground identity, evaluation always skips (same-app, or unresolved
destination). -/
lemma mac_evalPhase_skip_current (g : ClipboardState) (m : Mac.MonitorState)
    (i : Mac.TickInput)
    (hsrc : g.last_copy_source = some ⟨i.current_id, i.current_name⟩) :
    Mac.evalPhase g m i = ⟨g, m, emptyOut⟩ := by
  cases hcur : i.current_id with
  | none => simp [Mac.evalPhase, hcur]
  | some s =>
    exact mac_evalPhase_skip_sameid g m i ⟨i.current_id, i.current_name⟩ s hsrc
      (by rw [hcur]) hcur

lemma win_evalPhase_skip_current (g : ClipboardState) (m : Win.MonitorState)
    (i : Win.TickInput)
    (hsrc : g.last_copy_source = some ⟨i.current_id, i.current_name⟩) :
    Win.evalPhase g m i = ⟨g, m, emptyOut⟩ := by
  cases hcur : i.current_id with
  | none => simp [Win.evalPhase, hcur]
  | some s =>
    exact win_evalPhase_skip_sameid g m i ⟨i.current_id, i.current_name⟩ s hsrc
      (by rw [hcur]) hcur

/-- C3: on every tick whose sampled clipboard change counter differs from
the last observed value, the monitor resets the warning-dedup key,
disarms suppression (clearing `blocking_active`) if it was armed,
overwrites `last_copy_source` with a ClipboardEvent built from the
foreground identity sampled that same tick, and emits that
ClipboardEvent — all of it regardless of the guard's `enabled` flag,
which is universally quantified here. Both platforms. -/
theorem C3_clipboard_change_tick :
    (∀ (g : ClipboardState) (m : Mac.MonitorState) (i : Mac.TickInput),
        i.change_count ≠ m.last_change_count →
        (Mac.tick g m i).out.clipboard_events = [⟨i.current_id, i.current_name⟩] ∧
        (Mac.tick g m i).g.last_copy_source = some ⟨i.current_id, i.current_name⟩ ∧
        (Mac.tick g m i).m.last_warned = none ∧
        (Mac.tick g m i).m.last_change_count = i.change_count ∧
        (m.block_active = true →
          BlockerMsg.disable ∈ (Mac.tick g m i).out.blocker_msgs ∧
          (Mac.tick g m i).m.block_active = false ∧
          (Mac.tick g m i).g.blocking_active = false)) ∧
    (∀ (g : ClipboardState) (m : Win.MonitorState) (i : Win.TickInput),
        i.seq ≠ m.last_seq →
        (Win.tick g m i).out.clipboard_events = [⟨i.current_id, i.current_name⟩] ∧
        (Win.tick g m i).g.last_copy_source = some ⟨i.current_id, i.current_name⟩ ∧
        (Win.tick g m i).m.last_warned = none ∧
        (Win.tick g m i).m.last_seq = i.seq ∧
        (m.block_active = true →
          BlockerMsg.disable ∈ (Win.tick g m i).out.blocker_msgs ∧
          (Win.tick g m i).m.block_active = false ∧
          (Win.tick g m i).g.blocking_active = false)) := by
  constructor
  · intro g m i hcc
    cases hb : m.block_active <;> by_cases hen : g.enabled <;>
      by_cases hsw : i.current_id = m.last_frontmost_id <;>
      simp [Mac.tick, Mac.clipPhase, hcc, disarmStep, hb, hen, hsw,
        mac_evalPhase_skip_current, mergeOut, emptyOut]
  · intro g m i hcc
    cases hb : m.block_active <;> by_cases hen : g.enabled <;>
      by_cases hsw : i.current_id = m.last_frontmost_id <;>
      simp [Win.tick, Win.clipPhase, hcc, disarmStep, hb, hen, hsw,
        win_evalPhase_skip_current, mergeOut, emptyOut]

/-- C3 witness at a concrete clipboard-change tick with the guard
disabled and a block armed. -/
theorem C3_clipboard_change_tick_witness :
    (Mac.tick ⟨none, false, [], true⟩ ⟨0, some "a", some (some "a", some "b"), true⟩
        ⟨some "c", some "C", 1, false⟩).out.clipboard_events
      = [⟨some "c", some "C"⟩] ∧
    (Mac.tick ⟨none, false, [], true⟩ ⟨0, some "a", some (some "a", some "b"), true⟩
        ⟨some "c", some "C", 1, false⟩).g.last_copy_source = some ⟨some "c", some "C"⟩ ∧
    (Mac.tick ⟨none, false, [], true⟩ ⟨0, some "a", some (some "a", some "b"), true⟩
        ⟨some "c", some "C", 1, false⟩).m.last_warned = none ∧
    (Mac.tick ⟨none, false, [], true⟩ ⟨0, some "a", some (some "a", some "b"), true⟩
        ⟨some "c", some "C", 1, false⟩).m.last_change_count = 1 ∧
    (true = true →
      BlockerMsg.disable ∈ (Mac.tick ⟨none, false, [], true⟩
          ⟨0, some "a", some (some "a", some "b"), true⟩
          ⟨some "c", some "C", 1, false⟩).out.blocker_msgs ∧
      (Mac.tick ⟨none, false, [], true⟩ ⟨0, some "a", some (some "a", some "b"), true⟩
          ⟨some "c", some "C", 1, false⟩).m.block_active = false ∧
      (Mac.tick ⟨none, false, [], true⟩ ⟨0, some "a", some (some "a", some "b"), true⟩
          ⟨some "c", some "C", 1, false⟩).g.blocking_active = false) :=
  C3_clipboard_change_tick.1 ⟨none, false, [], true⟩
    ⟨0, some "a", some (some "a", some "b"), true⟩
    ⟨some "c", some "C", 1, false⟩ (by decide)

/-- C7: on any tick with no clipboard change where the current copy
source's app id equals the destination app id, no PasteWarning is
emitted and no Arm message is sent — for every guard state (any rule
list, enabled or not, armed or not). Both platforms. -/
theorem C7_same_app_exemption :
    (∀ (g : ClipboardState) (m : Mac.MonitorState) (i : Mac.TickInput)
        (src : ClipboardEvent) (s : String),
        i.change_count = m.last_change_count →
        g.last_copy_source = some src →
        src.source_app_id = some s →
        i.current_id = some s →
        (Mac.tick g m i).out.warnings = [] ∧
        BlockerMsg.enable ∉ (Mac.tick g m i).out.blocker_msgs) ∧
    (∀ (g : ClipboardState) (m : Win.MonitorState) (i : Win.TickInput)
        (src : ClipboardEvent) (s : String),
        i.seq = m.last_seq →
        g.last_copy_source = some src →
        src.source_app_id = some s →
        i.current_id = some s →
        (Win.tick g m i).out.warnings = [] ∧
        BlockerMsg.enable ∉ (Win.tick g m i).out.blocker_msgs) := by
  constructor
  · intro g m i src s hcc hsrc hid hcur
    cases hb : m.block_active <;> by_cases hen : g.enabled <;>
      by_cases hsw : i.current_id = m.last_frontmost_id <;>
      (simp [Mac.tick, mac_clipPhase_nochange g m i hcc, disarmStep, hb, hen, hsw,
        mac_evalPhase_skip_sameid, hsrc, hid, hcur, mergeOut, emptyOut];
        try (split <;> simp))
  · intro g m i src s hcc hsrc hid hcur
    cases hb : m.block_active <;> by_cases hen : g.enabled <;>
      by_cases hsw : i.current_id = m.last_frontmost_id <;>
      (simp [Win.tick, win_clipPhase_nochange g m i hcc, disarmStep, hb, hen, hsw,
        win_evalPhase_skip_sameid, hsrc, hid, hcur, mergeOut, emptyOut];
        try (split <;> simp))

/-- C7 witness: switching back to the copy source's own app warns
nothing even with a Block rule matching everything. -/
theorem C7_same_app_exemption_witness :
    (Mac.tick ⟨some ⟨some "term", some "Terminal"⟩, true,
        [⟨none, none, none, none, RuleAction.block⟩], false⟩
      ⟨0, some "other", none, false⟩
      ⟨some "term", some "Terminal", 0, true⟩).out.warnings = [] ∧
    BlockerMsg.enable ∉ (Mac.tick ⟨some ⟨some "term", some "Terminal"⟩, true,
        [⟨none, none, none, none, RuleAction.block⟩], false⟩
      ⟨0, some "other", none, false⟩
      ⟨some "term", some "Terminal", 0, true⟩).out.blocker_msgs :=
  C7_same_app_exemption.1 _ _ _ ⟨some "term", some "Terminal"⟩ "term"
    rfl rfl rfl rfl

/-- C9: when the last copy source's app id is absent, every destination
is cross-app (the same-app exemption never applies); for a rule with an
absent `from` pattern, matching depends only on the destination, so an
absent source id still matches; and a tick can emit a `PasteWarning`
whose source app id is absent. -/
theorem C9_absent_source_cross_app :
    (∀ (name : Option String) (d : String),
        is_cross_app ⟨none, name⟩ d = true) ∧
    (∀ (fname toPat tname : Option String) (act : RuleAction)
        (src : Option String) (d : String),
        ruleMatchPred ⟨none, fname, toPat, tname, act⟩ src d =
          (match toPat with
            | none => true
            | some pat => eqIgnoreAsciiCase pat d)) ∧
    ((Mac.tick
        ⟨some ⟨none, none⟩, true,
          [⟨none, none, some "com.apple.Terminal", none, RuleAction.notify⟩], false⟩
        ⟨0, some "x", none, false⟩
        ⟨some "com.apple.Terminal", some "Terminal", 0, true⟩).out.warnings
      = [⟨none, none, some "com.apple.Terminal", some "Terminal", false⟩]) := by
  refine ⟨?_, ?_, ?_⟩
  · intro name d
    rfl
  · intro fname toPat tname act src d
    cases toPat <;> simp [ruleMatchPred]
  · decide

/-- C2: on a tick where a matched rule's action is Block, enforcement is
gated on the elevated-input permission. On macOS the monitor consults
`AXIsProcessTrusted`: if trusted it sends Arm, sets `blocking_active`,
and emits a PasteWarning with `blocked = true`; if not trusted it
degrades to Notify — `blocked = false`, no Arm, `blocking_active`
untouched, and the notification text names the permission gap (grant
Accessibility). On Windows no elevated-input permission is required —
the permission query is constantly `true` — and a matched Block behaves
exactly as the granted branch: Arm, `blocking_active`, `blocked = true`. -/
theorem C2_block_permission_gated :
    (∀ (g : ClipboardState) (m : Mac.MonitorState) (i : Mac.TickInput)
        (src : ClipboardEvent) (d : String) (r : BlockRule),
        i.change_count = m.last_change_count →
        g.enabled = true →
        i.current_id = some d →
        i.current_id ≠ m.last_frontmost_id →
        m.block_active = false →
        g.last_copy_source = some src →
        is_cross_app src d = true →
        matches_rule g.rules src.source_app_id d = some r →
        r.action = RuleAction.block →
        m.last_warned ≠ some (src.source_app_id, some d) →
        ((i.ax_trusted = true →
            (Mac.tick g m i).out.blocker_msgs = [BlockerMsg.enable] ∧
            (Mac.tick g m i).g.blocking_active = true ∧
            (Mac.tick g m i).m.block_active = true ∧
            (Mac.tick g m i).out.warnings =
              [⟨src.source_app_id, src.source_app_name, some d, i.current_name, true⟩] ∧
            (Mac.tick g m i).out.notes =
              [blockedBody (src.source_app_name.getD "Unknown app")
                (i.current_name.getD "Unknown app")]) ∧
          (i.ax_trusted = false →
            (Mac.tick g m i).out.blocker_msgs = [] ∧
            (Mac.tick g m i).g.blocking_active = g.blocking_active ∧
            (Mac.tick g m i).m.block_active = false ∧
            (Mac.tick g m i).out.warnings =
              [⟨src.source_app_id, src.source_app_name, some d, i.current_name, false⟩] ∧
            (Mac.tick g m i).out.notes =
              [degradedBody (src.source_app_name.getD "Unknown app")
                (i.current_name.getD "Unknown app")]))) ∧
    check_accessibility_windows = true ∧
    (∀ (g : ClipboardState) (m : Win.MonitorState) (i : Win.TickInput)
        (src : ClipboardEvent) (d : String) (r : BlockRule),
        i.seq = m.last_seq →
        g.enabled = true →
        i.current_id = some d →
        i.current_id ≠ m.last_frontmost_id →
        m.block_active = false →
        g.last_copy_source = some src →
        is_cross_app src d = true →
        matches_rule g.rules src.source_app_id d = some r →
        r.action = RuleAction.block →
        m.last_warned ≠ some (src.source_app_id, some d) →
        (Win.tick g m i).out.blocker_msgs = [BlockerMsg.enable] ∧
        (Win.tick g m i).g.blocking_active = true ∧
        (Win.tick g m i).m.block_active = true ∧
        (Win.tick g m i).out.warnings =
          [⟨src.source_app_id, src.source_app_name, some d, i.current_name, true⟩] ∧
        (Win.tick g m i).out.notes =
          [blockedBody (src.source_app_name.getD "Unknown app")
            (i.current_name.getD "Unknown app")]) := by
  refine ⟨?_, rfl, ?_⟩
  · intro g m i src d r hcc hen hid hsw hba hsrc hcross hmatch hact hdedup
    rw [hid] at hsw
    constructor <;> intro hax <;>
      simp [Mac.tick, mac_clipPhase_nochange g m i hcc, Mac.evalPhase, disarmStep,
        mergeOut, emptyOut, hen, hid, hsw, hba, hsrc, hcross, hmatch, hact, hdedup, hax]
  · intro g m i src d r hcc hen hid hsw hba hsrc hcross hmatch hact hdedup
    rw [hid] at hsw
    simp [Win.tick, win_clipPhase_nochange g m i hcc, Win.evalPhase, disarmStep,
      mergeOut, emptyOut, hen, hid, hsw, hba, hsrc, hcross, hmatch, hact, hdedup]

/-- C2 witness: a concrete Block tick on macOS with Accessibility
granted arms suppression and emits a blocked warning. -/
theorem C2_block_permission_gated_witness :
    (Mac.tick ⟨some ⟨some "editor", some "Editor"⟩, true,
        [⟨none, none, some "term", none, RuleAction.block⟩], false⟩
      ⟨0, some "editor", none, false⟩
      ⟨some "term", some "Term", 0, true⟩).out.blocker_msgs = [BlockerMsg.enable] ∧
    (Mac.tick ⟨some ⟨some "editor", some "Editor"⟩, true,
        [⟨none, none, some "term", none, RuleAction.block⟩], false⟩
      ⟨0, some "editor", none, false⟩
      ⟨some "term", some "Term", 0, true⟩).g.blocking_active = true ∧
    (Mac.tick ⟨some ⟨some "editor", some "Editor"⟩, true,
        [⟨none, none, some "term", none, RuleAction.block⟩], false⟩
      ⟨0, some "editor", none, false⟩
      ⟨some "term", some "Term", 0, true⟩).m.block_active = true ∧
    (Mac.tick ⟨some ⟨some "editor", some "Editor"⟩, true,
        [⟨none, none, some "term", none, RuleAction.block⟩], false⟩
      ⟨0, some "editor", none, false⟩
      ⟨some "term", some "Term", 0, true⟩).out.warnings =
      [⟨some "editor", some "Editor", some "term", some "Term", true⟩] ∧
    (Mac.tick ⟨some ⟨some "editor", some "Editor"⟩, true,
        [⟨none, none, some "term", none, RuleAction.block⟩], false⟩
      ⟨0, some "editor", none, false⟩
      ⟨some "term", some "Term", 0, true⟩).out.notes =
      [blockedBody "Editor" "Term"] :=
  (C2_block_permission_gated.1
    ⟨some ⟨some "editor", some "Editor"⟩, true,
      [⟨none, none, some "term", none, RuleAction.block⟩], false⟩
    ⟨0, some "editor", none, false⟩
    ⟨some "term", some "Term", 0, true⟩
    ⟨some "editor", some "Editor"⟩ "term"
    ⟨none, none, some "term", none, RuleAction.block⟩
    rfl rfl rfl (by decide) rfl rfl (by decide) (by decide) rfl
    (by decide)).1 rfl

end Clipguard
